import Mathlib

/-!
Verification of the extraction and field-resolution pipeline of
`src/app.py` (Amazon Top-20 → Micro Center matcher).

The Python source is shallowly embedded: HTML documents become a `Node`
tree, network fetches become explicit oracles (`Option`-valued functions,
where `none` models a raised exception), Python `float` values become
exact fractions (`PyNum`), and the regular expressions of the source are
embedded as direct string scanners over `List Char`.  All definitions are
computable and structurally recursive so concrete runs evaluate inside
the kernel.
-/

/-! ### Python-style character and string helpers -/

/-- Python whitespace as used by `str.strip` and the regex class. -/
def isPyWs (c : Char) : Bool :=
  c == ' ' || c == '\t' || c == '\n' || c == '\r' || c == '\x0b' || c == '\x0c'

/-- A regex word character (`\w` over ASCII input): letters, digits, underscore. -/
def isWordChar (c : Char) : Bool :=
  c.isAlpha || c.isDigit || c == '_'

/-- Python `str.strip()` (ASCII whitespace model). -/
def pystrip (s : String) : String :=
  String.mk (((s.toList.dropWhile isPyWs).reverse.dropWhile isPyWs).reverse)

/-- Python `str.lower()` (ASCII model). -/
def pyLower (s : String) : String :=
  String.mk (s.toList.map Char.toLower)

/-- Python `str.startswith(pre)` (list-based so the kernel can run it). -/
def pyStartsWith (s pre : String) : Bool :=
  pre.toList.isPrefixOf s.toList

/-- Python `str.replace(" ", "")`: delete every space character. -/
def removeSpaces (s : String) : String :=
  String.mk (s.toList.filter (fun c => c ≠ ' '))

/-- Python `str.replace("$", "")`: delete every dollar sign. -/
def removeDollars (s : String) : String :=
  String.mk (s.toList.filter (fun c => c ≠ '$'))

/-- Split on runs of whitespace, dropping empty tokens (the `re.split(r"\s+", s)`
followed by truthiness filtering used throughout the source). -/
def splitWsAux (acc : List Char) : List Char → List (List Char)
  | [] => if acc.isEmpty then [] else [acc.reverse]
  | c :: cs =>
    if isPyWs c then
      if acc.isEmpty then splitWsAux [] cs else acc.reverse :: splitWsAux [] cs
    else splitWsAux (c :: acc) cs

def splitWs (cs : List Char) : List (List Char) :=
  splitWsAux [] cs

/-- Whitespace-separated tokens of a string (used for multi-valued HTML
attributes such as `class` and `rel`). -/
def wsTokens (s : String) : List String :=
  (splitWs s.toList).map String.mk

/-- Python `needle in haystack` on strings (substring containment). -/
def listSubstr (nd : List Char) : List Char → Bool
  | [] => nd.isEmpty
  | c :: cs => nd.isPrefixOf (c :: cs) || listSubstr nd cs

def strContains (haystack needle : String) : Bool :=
  listSubstr needle.toList haystack.toList

/-- Index of the first occurrence of `nd` in the haystack, if any. -/
def findSubAux (nd : List Char) (i : Nat) : List Char → Option Nat
  | [] => if nd.isEmpty then some i else none
  | c :: cs => if nd.isPrefixOf (c :: cs) then some i else findSubAux nd (i + 1) cs

def findSub (nd : List Char) (hay : List Char) : Option Nat :=
  findSubAux nd 0 hay

/-! ### Exact numbers standing in for Python floats

Python float values produced by `float(...)` in the source are modeled as
exact fractions with a positive denominator; comparisons are exact
cross-multiplied integer comparisons. -/

structure PyNum where
  num : Int
  den : Nat
  den_pos : 0 < den
deriving DecidableEq

def PyNum.le (a b : PyNum) : Prop :=
  a.num * (b.den : Int) ≤ b.num * (a.den : Int)

def PyNum.lt (a b : PyNum) : Prop :=
  a.num * (b.den : Int) < b.num * (a.den : Int)

instance (a b : PyNum) : Decidable (PyNum.le a b) := by
  unfold PyNum.le; infer_instance

instance (a b : PyNum) : Decidable (PyNum.lt a b) := by
  unfold PyNum.lt; infer_instance

def PyNum.ofInt (n : Int) : PyNum :=
  ⟨n, 1, Nat.one_pos⟩

def PyNum.add (a b : PyNum) : PyNum :=
  ⟨a.num * b.den + b.num * a.den, a.den * b.den, Nat.mul_pos a.den_pos b.den_pos⟩

/-- Python `min(x, y)` (returns the first argument on ties). -/
def PyNum.pymin (a b : PyNum) : PyNum :=
  if PyNum.le a b then a else b

/-- Parse a decimal literal the way Python `float(...)` does on the money
strings of this program: optional surrounding whitespace, optional sign,
digits with an optional fractional part.  Exponent forms and `inf`/`nan`
do not occur in the source's inputs and are not modeled. -/
def parseDigits (cs : List Char) : Nat :=
  cs.foldl (fun acc c => acc * 10 + (c.toNat - '0'.toNat)) 0

def pyFloat? (s : String) : Option PyNum :=
  let cs := (s.toList.dropWhile isPyWs).reverse.dropWhile isPyWs |>.reverse
  let (sign, cs) : Int × List Char :=
    match cs with
    | '-' :: rest => (-1, rest)
    | '+' :: rest => (1, rest)
    | rest => (1, rest)
  let intPart := cs.takeWhile Char.isDigit
  let rest := cs.drop intPart.length
  match rest with
  | [] =>
    if intPart.isEmpty then none
    else some ⟨sign * parseDigits intPart, 1, Nat.one_pos⟩
  | '.' :: frac =>
    let fracPart := frac.takeWhile Char.isDigit
    if frac.drop fracPart.length ≠ [] then none
    else if intPart.isEmpty && fracPart.isEmpty then none
    else
      some ⟨sign * (parseDigits intPart * (10 ^ fracPart.length) + parseDigits fracPart),
            10 ^ fracPart.length, Nat.pos_pow_of_pos _ (by omega)⟩
  | _ => none

/-! ### HTML document model and BeautifulSoup-style operations -/

/-- Parsed markup: a tree of elements (tag, attributes, children) and text
nodes, the shape `BeautifulSoup(..., "html.parser")` produces. -/
inductive Node where
  | text (s : String)
  | elem (tag : String) (attrs : List (String × String)) (children : List Node)

mutual
/-- All descendants of a node in document (preorder) order, excluding the
node itself — the search space of `el.find`/`el.find_all`. -/
def nodeDescend : Node → List Node
  | Node.text _ => []
  | Node.elem _ _ cs => listDescend cs

def listDescend : List Node → List Node
  | [] => []
  | n :: ns => n :: (nodeDescend n ++ listDescend ns)
end

mutual
/-- The raw text fragments below a node, in document order. -/
def nodeStrings : Node → List String
  | Node.text s => [s]
  | Node.elem _ _ cs => listStrings cs

def listStrings : List Node → List String
  | [] => []
  | n :: ns => nodeStrings n ++ listStrings ns
end

/-- `get_text(sep, strip=True)`: strip each fragment, drop the empty ones,
join with the separator. -/
def getTextStrip (sep : String) (n : Node) : String :=
  String.intercalate sep (((nodeStrings n).map pystrip).filter (fun s => s ≠ ""))

/-- First value of an attribute on an element (`el.get(key)`). -/
def getAttr (n : Node) (k : String) : Option String :=
  match n with
  | Node.text _ => none
  | Node.elem _ attrs _ => (attrs.find? (fun p => p.1 == k)).map (fun p => p.2)

def tagIs (n : Node) (t : String) : Bool :=
  match n with
  | Node.text _ => false
  | Node.elem tag _ _ => tag == t

/-- Multi-valued attribute membership (`class`/`rel` token lists). -/
def hasAttrToken (n : Node) (k tok : String) : Bool :=
  match getAttr n k with
  | some v => (wsTokens v).contains tok
  | none => false

/-- `soup.find_all(tag, attrKey=True)`: all descendants with the tag that
carry the attribute, in document order. -/
def findAllWithAttr (root : Node) (tag attrKey : String) : List Node :=
  (nodeDescend root).filter (fun n => tagIs n tag && (getAttr n attrKey).isSome)

/-- `soup.find(id=v)`: first descendant (any tag) with that id. -/
def findById (root : Node) (v : String) : Option Node :=
  (nodeDescend root).find? (fun n => getAttr n "id" == some v)

/-- `soup.find(tag, id=v)`. -/
def findTagId (root : Node) (tag v : String) : Option Node :=
  (nodeDescend root).find? (fun n => tagIs n tag && getAttr n "id" == some v)

/-- `el.find(tag, class_=cls)`: class matching is token membership. -/
def findTagClass (root : Node) (tag cls : String) : Option Node :=
  (nodeDescend root).find? (fun n => tagIs n tag && hasAttrToken n "class" cls)

/-- `soup.select("tag.cls")`: every matching descendant in document order. -/
def selectTagClass (root : Node) (tag cls : String) : List Node :=
  (nodeDescend root).filter (fun n => tagIs n tag && hasAttrToken n "class" cls)

/-- `soup.find(tag, attrs={key: v})`: exact attribute-value match. -/
def findTagAttrVal (root : Node) (tag key v : String) : Option Node :=
  (nodeDescend root).find? (fun n => tagIs n tag && getAttr n key == some v)

/-- `soup.find("link", rel=lambda v: v and "image_src" in v)`: `rel` is
multi-valued, so the lambda receives the token list. -/
def findLinkImageSrc (root : Node) : Option Node :=
  (nodeDescend root).find? (fun n => tagIs n "link" && hasAttrToken n "rel" "image_src")

/-- `el.find("img", alt=True)`. -/
def findImgWithAlt (root : Node) : Option Node :=
  (nodeDescend root).find? (fun n => tagIs n "img" && (getAttr n "alt").isSome)

/-- `soup.select_one("#id img")`: first image element living below an
element with the given id, in document order. -/
def selectOneIdImg (root : Node) (idv : String) : Option Node :=
  (((nodeDescend root).filter (fun n => getAttr n "id" == some idv)).map
    (fun w => (nodeDescend w).filter (fun n => tagIs n "img"))).flatten.head?

/-! ### Embedded regular expressions -/

/-- Generic scanner: try a matcher at every start position (`re.search`). -/
def scanFor (tryAt : List Char → Option String) : List Char → Option String
  | [] => tryAt []
  | c :: cs =>
    match tryAt (c :: cs) with
    | some r => some r
    | none => scanFor tryAt cs

/-- Match `\$\s*\d[\d,]*(?:\.\d{2})?` at the current position, returning the
matched text (`m.group(0)`). -/
def dollarAmountAt : List Char → Option String
  | '$' :: rest =>
    let ws := rest.takeWhile isPyWs
    match rest.drop ws.length with
    | d :: rest3 =>
      if d.isDigit then
        let body := rest3.takeWhile (fun c => c.isDigit || c == ',')
        let frac : List Char :=
          match rest3.drop body.length with
          | '.' :: a :: b :: _ => if a.isDigit && b.isDigit then ['.', a, b] else []
          | _ => []
        some (String.mk ('$' :: (ws ++ d :: (body ++ frac))))
      else none
    | [] => none
  | _ => none

/-- `re.search(r"\$\s*\d[\d,]*(?:\.\d{2})?", s)`. -/
def searchDollarAmount (s : String) : Option String :=
  scanFor dollarAmountAt s.toList

/-- `re.match(r"^\$\s*\d", s)` as a Bool. -/
def startsDollarDigit (s : String) : Bool :=
  match s.toList with
  | '$' :: rest =>
    match rest.dropWhile isPyWs with
    | d :: _ => d.isDigit
    | [] => false
  | _ => false

/-- Match `"(https:[^"]+)"\s*:` at the current position, returning group 1
(the quoted URL). -/
def dynImageAt : List Char → Option String
  | '"' :: 'h' :: 't' :: 't' :: 'p' :: 's' :: ':' :: rest =>
    let body := rest.takeWhile (fun c => c ≠ '"')
    if body.isEmpty then none
    else
      match rest.drop body.length with
      | '"' :: rest2 =>
        match rest2.dropWhile isPyWs with
        | ':' :: _ => some (String.mk ('h' :: 't' :: 't' :: 'p' :: 's' :: ':' :: body))
        | _ => none
      | _ => none
  | _ => none

/-- `re.search(r"\"(https:[^\"]+)\"\s*:", s)` returning group 1. -/
def searchDynImage (s : String) : Option String :=
  scanFor dynImageAt s.toList

/-- Keyword match at the current position followed by a word boundary. -/
def kwHere (kw : List Char) (s : List Char) : Bool :=
  kw.isPrefixOf s &&
    (match s.drop kw.length with
     | [] => true
     | c :: _ => !isWordChar c)

def boundaryOk : Option Char → Bool
  | none => true
  | some p => !isWordChar p

/-- `re.search(r"\b(kw1|kw2|...)\b", s, re.I)` over a lowercased haystack and
lowercase keywords (all keywords start and end with word characters). -/
def searchKwsAux (kws : List (List Char)) : Option Char → List Char → Bool
  | _, [] => false
  | prev, c :: cs =>
    (boundaryOk prev && kws.any (fun kw => kwHere kw (c :: cs))) ||
      searchKwsAux kws (some c) cs

def searchWordsCI (kws : List String) (s : String) : Bool :=
  searchKwsAux (kws.map (fun k => k.toList)) none ((pyLower s).toList)

/-- `re.search(r"/(kw1|kw2|...)\b", path)`: a slash, a keyword, a boundary. -/
def searchSlashKws (kws : List (List Char)) : List Char → Bool
  | [] => false
  | c :: cs =>
    (c == '/' && kws.any (fun kw => kwHere kw cs)) || searchSlashKws kws cs

/-! ### Amazon scraping: ASIN extraction (`ASIN_REGEXES`, `extract_asin_from_url`) -/

def isAsinChar (c : Char) : Bool :=
  ('A' ≤ c && c ≤ 'Z') || c.isDigit

def isAsinCharCI (c : Char) : Bool :=
  c.isAlpha || c.isDigit

/-- Ten identifier characters, then one of `endChars` or end of input
(the `([A-Z0-9]{10})(?:[/?]|$)` tail shared by the ASIN regexes). -/
def asinTail (pred : Char → Bool) (endChars : List Char) (cs : List Char) : Option String :=
  let ten := cs.take 10
  if ten.length == 10 && ten.all pred then
    match cs.drop 10 with
    | [] => some (String.mk ten)
    | c :: _ => if endChars.contains c then some (String.mk ten) else none
  else none

/-- `re.compile(r"/dp/([A-Z0-9]{10})(?:[/?]|$)")`, searched. -/
def searchAsinDp (url : String) : Option String :=
  scanFor
    (fun s => if "/dp/".toList.isPrefixOf s then asinTail isAsinChar ['/', '?'] (s.drop 4) else none)
    url.toList

/-- `re.compile(r"/gp/product/([A-Z0-9]{10})(?:[/?]|$)")`, searched. -/
def searchAsinGp (url : String) : Option String :=
  scanFor
    (fun s =>
      if "/gp/product/".toList.isPrefixOf s then asinTail isAsinChar ['/', '?'] (s.drop 12)
      else none)
    url.toList

/-- `re.compile(r"[?&]ASIN=([A-Z0-9]{10})(?:&|$)", re.IGNORECASE)`, searched;
the ignore-case flag also widens the character class to lowercase letters. -/
def searchAsinQuery (url : String) : Option String :=
  scanFor
    (fun s =>
      match s with
      | c :: cs =>
        if (c == '?' || c == '&') && ((cs.take 5).map Char.toLower == "asin=".toList) then
          asinTail isAsinCharCI ['&'] (cs.drop 5)
        else none
      | [] => none)
    url.toList

/-- `extract_asin_from_url`: the three URL shapes tried in order. -/
def extract_asin_from_url (url : String) : Option String :=
  match searchAsinDp url with
  | some a => some a
  | none =>
    match searchAsinGp url with
    | some a => some a
    | none => searchAsinQuery url

/-! ### Amazon scraping: the top-20 listing extraction
(`parse_top20_from_category_page`) -/

/-- One collected listing row (`{"ASIN": ..., "Title": ..., "URL": ...}`). -/
structure AmznItem where
  ASIN : String
  Title : String
  URL : String
deriving DecidableEq

/-- `urljoin(final_url, href)` for the root-relative hrefs this program
feeds it: protocol-relative hrefs keep only the scheme, other `/...` hrefs
are joined onto scheme and network location. -/
def urljoin (base href : String) : String :=
  match findSub "://".toList base.toList with
  | some i =>
    let scheme := String.mk (base.toList.take i)
    if pyStartsWith href "//" then scheme ++ ":" ++ href
    else
      let afterScheme := base.toList.drop (i + 3)
      let netloc := afterScheme.takeWhile (fun c => c ≠ '/' && c ≠ '?' && c ≠ '#')
      scheme ++ "://" ++ String.mk netloc ++ href
  | none => href

/-- Best-effort title of an anchor: its stripped text, else a descendant
image's `alt`, else the anchor's `title` attribute. -/
def anchorTitle (a : Node) : String :=
  let t1 := pystrip (getTextStrip "" a)
  let t2 :=
    if t1 ≠ "" then t1
    else
      match findImgWithAlt a with
      | some img =>
        match getAttr img "alt" with
        | some alt => if alt ≠ "" then pystrip alt else ""
        | none => ""
      | none => ""
  if t2 ≠ "" then t2
  else
    match getAttr a "title" with
    | some tv => if tv ≠ "" then pystrip tv else ""
    | none => ""

/-- The anchor loop of `parse_top20_from_category_page`.  `redirect` is the
oracle for the shortlink-resolving `session.get` (`none` = exception, in
which case the URL is kept); `seen` is the set of already-collected ASINs
and `count` the number of collected items. -/
def top20Go (redirect : String → Option String) (finalUrl : String) :
    List Node → List String → Nat → List AmznItem
  | [], _, _ => []
  | a :: rest, seen, count =>
    let href := (getAttr a "href").getD ""
    match extract_asin_from_url href with
    | none => top20Go redirect finalUrl rest seen count
    | some asin =>
      if asin ∈ seen then top20Go redirect finalUrl rest seen count
      else
        let title := anchorTitle a
        let item_url := if pyStartsWith href "/" then urljoin finalUrl href else href
        let item_url := (redirect item_url).getD item_url
        let item : AmznItem := ⟨asin, title, item_url⟩
        if 20 ≤ count + 1 then [item]
        else item :: top20Go redirect finalUrl rest (asin :: seen) (count + 1)

/-- `parse_top20_from_category_page` applied to an already-fetched page:
scan all `a[href]` anchors, collect the first 20 unique ASINs. -/
def parse_top20_from_anchors (redirect : String → Option String) (finalUrl : String)
    (anchors : List Node) : List AmznItem :=
  top20Go redirect finalUrl anchors [] 0

def parse_top20_from_category_page (redirect : String → Option String) (soup : Node)
    (finalUrl : String) : List AmznItem :=
  parse_top20_from_anchors redirect finalUrl (findAllWithAttr soup "a" "href")

/-- Reference function for the claims: keep the first occurrence of every
string, dropping later duplicates (`seen` are already-taken strings). -/
def firstDedup : List String → List String → List String
  | [], _ => []
  | x :: xs, seen =>
    if x ∈ seen then firstDedup xs seen else x :: firstDedup xs (x :: seen)

/-- The ASINs the anchor scan extracts, in page order, before dedup/cap. -/
def anchorAsins (anchors : List Node) : List String :=
  anchors.filterMap (fun a => extract_asin_from_url ((getAttr a "href").getD ""))

/-! ### Amazon scraping: detail-page field resolution
(`extract_price_from_soup_amzn`, `extract_image_from_soup_amzn`,
`fetch_item_details_amzn`) -/

def candidate_ids : List String :=
  ["priceblock_ourprice", "priceblock_dealprice", "priceblock_saleprice",
   "priceblock_pospromoprice", "sns-base-price", "corePrice_feature_div",
   "apex_desktop", "priceToPay"]

/-- The `for cid in candidate_ids` loop: in each found container, first an
`a-offscreen` span with text, else a currency-pattern match over the
container's text; a container with neither falls through to the next id. -/
def priceFromIds (soup : Node) : List String → Option String
  | [] => none
  | cid :: rest =>
    match findById soup cid with
    | none => priceFromIds soup rest
    | some el =>
      let offText :=
        match findTagClass el "span" "a-offscreen" with
        | some off => getTextStrip "" off
        | none => ""
      if offText ≠ "" then some offText
      else
        match searchDollarAmount (getTextStrip " " el) with
        | some m => some (removeSpaces m)
        | none => priceFromIds soup rest

/-- The final `og:price:amount` fallback of the price chain. -/
def priceOgAmount (soup : Node) : String :=
  match findTagAttrVal soup "meta" "property" "og:price:amount" with
  | some og =>
    match getAttr og "content" with
    | some c => if c ≠ "" then (if pyStartsWith c "$" then c else "$" ++ c) else ""
    | none => ""
  | none => ""

def extract_price_from_soup_amzn (soup : Node) : String :=
  match priceFromIds soup candidate_ids with
  | some p => p
  | none =>
    match
      ((selectTagClass soup "span" "a-offscreen").map (fun off => getTextStrip "" off)).find?
        (fun v => startsDollarDigit v)
    with
    | some v => removeSpaces v
    | none =>
      match findTagAttrVal soup "meta" "itemprop" "price" with
      | some meta =>
        match getAttr meta "content" with
        | some c =>
          if c ≠ "" then (if pyStartsWith c "$" then c else "$" ++ c) else priceOgAmount soup
        | none => priceOgAmount soup
      | none => priceOgAmount soup

/-- The landing-image attribute loop: `data-old-hires`, `src`, then the
JSON-encoded `data-a-dynamic-image` (regex-extract the first quoted URL). -/
def landingImageAttrs (landing : Node) : Option String :=
  let tryPlain := fun (k : String) =>
    match getAttr landing k with
    | some v => if pystrip v ≠ "" then some v else none
    | none => none
  match tryPlain "data-old-hires" with
  | some v => some v
  | none =>
    match tryPlain "src" with
    | some v => some v
    | none =>
      match getAttr landing "data-a-dynamic-image" with
      | some v => if pystrip v ≠ "" then searchDynImage v else none
      | none => none

def extract_image_from_soup_amzn (soup : Node) : String :=
  let s1 :=
    match findTagAttrVal soup "meta" "property" "og:image" with
    | some og =>
      match getAttr og "content" with
      | some c => if c ≠ "" then some c else none
      | none => none
    | none => none
  let s2 :=
    match findLinkImageSrc soup with
    | some l =>
      match getAttr l "href" with
      | some h => if h ≠ "" then some h else none
      | none => none
    | none => none
  let s3 :=
    match findTagId soup "img" "landingImage" with
    | some landing => landingImageAttrs landing
    | none => none
  let s4 :=
    match selectOneIdImg soup "imgTagWrapperId" with
    | some img =>
      match getAttr img "data-old-hires" with
      | some v =>
        if v ≠ "" then some v
        else
          match getAttr img "src" with
          | some w => if w ≠ "" then some w else none
          | none => none
      | none =>
        match getAttr img "src" with
        | some w => if w ≠ "" then some w else none
        | none => none
    | none => none
  (((s1.or s2).or s3).or s4).getD ""

/-- The retry loop of `fetch_item_details_amzn`.  `fetch` is the oracle for
`get_soup` on each attempt (`none` = fetch/parse exception); `remaining`
counts the iterations the `for attempt in range(retries + 1)` loop still
has.  Returns the `(price, image)` pair together with the number of
`time.sleep(random.uniform(*delay_range))` backoff calls executed. -/
def detailLoop (fetch : Nat → Option Node) (retries attempt : Nat) :
    Nat → (String × String) × Nat
  | 0 => (("", ""), 0)
  | remaining + 1 =>
    match fetch attempt with
    | some soup =>
      let price := extract_price_from_soup_amzn soup
      let image := extract_image_from_soup_amzn soup
      if image ≠ "" then ((price, image), 0)
      else
        let r := detailLoop fetch retries (attempt + 1) remaining
        (r.1, r.2 + 1)
    | none =>
      if retries ≤ attempt then (("", ""), 0)
      else
        let r := detailLoop fetch retries (attempt + 1) remaining
        (r.1, r.2 + 1)

/-- `fetch_item_details_amzn(item_url, retries=2)`: up to `retries + 1`
attempts; an attempt's result is only accepted when the image resolved. -/
def fetch_item_details_amzn (fetch : Nat → Option Node) (retries : Nat) :
    (String × String) × Nat :=
  detailLoop fetch retries 0 (retries + 1)

/-! ### Micro Center: service-page URL filtering
(`_SERVICE_PAT`, `_is_service_like_url`) -/

/-- `urlparse(url).path` for the URLs this program builds: skip
`scheme://netloc`, cut at query or fragment; without a netloc, strip a
leading `scheme:` token. -/
def urlPath (url : String) : String :=
  match findSub "://".toList url.toList with
  | some i =>
    let rest := url.toList.drop (i + 3)
    let netloc := rest.takeWhile (fun c => c ≠ '/' && c ≠ '?' && c ≠ '#')
    String.mk ((rest.drop netloc.length).takeWhile (fun c => c ≠ '?' && c ≠ '#'))
  | none =>
    let cs := url.toList
    let sch := cs.takeWhile (fun c => c.isAlpha || c.isDigit || c == '+' || c == '-' || c == '.')
    let hasScheme :=
      !sch.isEmpty && (cs.drop sch.length).head? == some ':' &&
        (match sch.head? with | some c => c.isAlpha | none => false)
    let cs := if hasScheme then cs.drop (sch.length + 1) else cs
    String.mk (cs.takeWhile (fun c => c ≠ '?' && c ≠ '#'))

def servicePatKws : List String :=
  ["service", "services", "repair", "repairs", "battery", "batteries",
   "appointment", "warranty", "diagnostic", "trade-in", "protection", "tech-support"]

def _is_service_like_url (url : String) : Bool :=
  let path := pyLower (urlPath url)
  searchSlashKws (servicePatKws.map (fun k => k.toList)) path.toList ||
    strContains path "/in-store-service" || strContains path "/data-recovery" ||
    strContains path "/apple-"

/-! ### Micro Center: token scoring (`_normalize_tokens`, `_score_candidate`) -/

/-- Keep `[a-z0-9\s\-\+_/\.]`, blank out everything else (the `re.sub` in
`_normalize_tokens`; the input is already lowercased). -/
def normChar (c : Char) : Char :=
  if ('a' ≤ c && c ≤ 'z') || c.isDigit || isPyWs c ||
      c == '-' || c == '+' || c == '_' || c == '/' || c == '.' then c
  else ' '

def _normalize_tokens (s : String) : List String :=
  (splitWs ((pyLower s).toList.map normChar)).map String.mk

/-- The fields of one parsed Micro Center product page
(`_parse_mc_product_page` result, the parts the candidate flow reads). -/
structure MCPage where
  detected_sku : String
  MCTitle : String
  MCBrand : String
  MCModel : String
  MCDescription : String
deriving DecidableEq

/-- A fully assembled candidate: the parsed page plus the `MCURL` the page
was fetched from and the `_score` attached by the search flow. -/
structure MCCand extends MCPage where
  MCURL : String
  score : PyNum
deriving DecidableEq

/-- `_score_candidate(query, pdict)`: token-set Jaccard overlap of the query
against title+brand+model+description, a flat `0.15` bonus when the model
appears verbatim in the joined query tokens, clamped to `[0, 1]`.  Python
set iteration order is modeled as first-occurrence order. -/
def _score_candidate (query : String) (p : MCPage) : PyNum :=
  let q_tokens := firstDedup (_normalize_tokens query) []
  let fields := String.intercalate " " [p.MCTitle, p.MCBrand, p.MCModel, p.MCDescription]
  let c_tokens := firstDedup (_normalize_tokens fields) []
  if q_tokens.isEmpty || c_tokens.isEmpty then PyNum.ofInt 0
  else
    let inter := (q_tokens.filter (fun t => c_tokens.contains t)).length
    let union := q_tokens.length + c_tokens.length - inter
    let score : PyNum :=
      ⟨inter, max union 1, Nat.lt_of_lt_of_le Nat.one_pos (Nat.le_max_right union 1)⟩
    let model := pyLower p.MCModel
    let score :=
      if model ≠ "" && strContains (String.intercalate " " q_tokens) model then
        PyNum.add score ⟨15, 100, by omega⟩
      else score
    PyNum.pymin score (PyNum.ofInt 1)

/-! ### Micro Center: price disambiguation (`PRICE_CTX_*`, `_pick_prices`) -/

def PRICE_CTX_CURRENT (s : String) : Bool :=
  searchWordsCI ["your", "current", "now", "sale", "today"] s

def PRICE_CTX_RETAIL (s : String) : Bool :=
  searchWordsCI ["was", "reg", "regular", "compare", "strike", "list"] s

/-- `score_current` inside `_pick_prices`. -/
def score_current (ctx : String) : Nat :=
  if PRICE_CTX_CURRENT ctx then 2 else 0

/-- `score_retail` inside `_pick_prices`. -/
def score_retail (ctx : String) : Nat :=
  if PRICE_CTX_RETAIL ctx then 2 else 0

/-- `to_float` inside `_pick_prices`: `float(val.replace("$", ""))`, `-1.0`
on failure. -/
def to_float (val : String) : PyNum :=
  (pyFloat? (removeDollars val)).getD (PyNum.ofInt (-1))

/-- `to_num` inside `_pick_prices`: same parse, `None` on failure. -/
def to_num (s : String) : Option PyNum :=
  pyFloat? (removeDollars s)

/-- One bucket entry `(val, score, fval, ctx, src)`. -/
structure PEntry where
  val : String
  sc : Nat
  fval : PyNum
  ctx : String
  src : String

/-- The classification loop of `_pick_prices`: contexts cueing only
"current" go to the first bucket, only "retail" to the second, everything
else (no cue, or both cues) to the unknown bucket with score 1. -/
def partition3 : List (String × String × String) → List PEntry × List PEntry × List PEntry
  | [] => ([], [], [])
  | (val, ctx, src) :: rest =>
    let r := partition3 rest
    let sc_c := score_current ctx
    let sc_r := score_retail ctx
    let fval := to_float val
    if sc_r < sc_c then (⟨val, sc_c, fval, ctx, src⟩ :: r.1, r.2.1, r.2.2)
    else if sc_c < sc_r then (r.1, ⟨val, sc_r, fval, ctx, src⟩ :: r.2.1, r.2.2)
    else (r.1, r.2.1, ⟨val, 1, fval, ctx, src⟩ :: r.2.2)

/-- Stable insertion of an entry into a list sorted descending by the
`(score, fval)` key — the effect of `sort(key=lambda x: (x[1], x[2]),
reverse=True)` on each element. -/
def insertEntryDesc (x : PEntry) : List PEntry → List PEntry
  | [] => [x]
  | y :: ys =>
    if x.sc < y.sc ∨ (x.sc = y.sc ∧ PyNum.lt x.fval y.fval) then y :: insertEntryDesc x ys
    else x :: y :: ys

def sortEntriesDesc : List PEntry → List PEntry
  | [] => []
  | x :: xs => insertEntryDesc x (sortEntriesDesc xs)

/-- The final consistency step of `_pick_prices`: when both prices parse
and current > retail, swap them. -/
def swapIfInconsistent (cur ret : String) : String × String :=
  match to_num cur, to_num ret with
  | some n_cur, some n_ret => if PyNum.lt n_ret n_cur then (ret, cur) else (cur, ret)
  | _, _ => (cur, ret)

/-- `_pick_prices(cands)`: classify, default unknowns to the current bucket
when no explicit current match exists, sort each bucket, take the heads,
swap on inconsistency.  Returns `(current, retail)`. -/
def _pick_prices (cands : List (String × String × String)) : String × String :=
  if cands.isEmpty then ("", "")
  else
    let p := partition3 cands
    let current_cands := if p.1.isEmpty && !p.2.2.isEmpty then p.2.2 else p.1
    let current_sorted := sortEntriesDesc current_cands
    let retail_sorted := sortEntriesDesc p.2.1
    let cur := match current_sorted with | [] => "" | e :: _ => e.val
    let ret := match retail_sorted with | [] => "" | e :: _ => e.val
    swapIfInconsistent cur ret

/-! ### Micro Center: candidate search, filtering and ranking
(`fetch_microcenter_candidates`) -/

/-- `re.fullmatch(r"\d{4,}", q)`: the query is a plausible SKU. -/
def isNumericId (q : String) : Bool :=
  4 ≤ q.length && q.toList.all Char.isDigit

/-- The `0.12` minimum-score threshold of `fetch_microcenter_candidates`. -/
def minScore : PyNum :=
  ⟨12, 100, by omega⟩

/-- Stable insertion into a list sorted descending by `_score` — the effect
of `others.sort(key=lambda x: x.get("_score", 0.0), reverse=True)`. -/
def insertScoreDesc (x : MCCand) : List MCCand → List MCCand
  | [] => [x]
  | y :: ys => if PyNum.lt x.score y.score then y :: insertScoreDesc x ys else x :: y :: ys

def sortByScoreDesc : List MCCand → List MCCand
  | [] => []
  | x :: xs => insertScoreDesc x (sortByScoreDesc xs)

/-- The ranking block at the end of `fetch_microcenter_candidates`
(src/app.py lines 470–480): exact-SKU matches of a numeric query are
pulled out in order, the rest are dropped below the `0.12` score
threshold, sorted descending by score, appended after the exact matches,
and the whole list is truncated to `limit`. -/
def rank_results (q : String) (parsed : List MCCand) (limit : Nat) : List MCCand :=
  let num_q := isNumericId q
  let exact := parsed.filter (fun p => num_q && p.detected_sku == q)
  let others := parsed.filter (fun p => !(num_q && p.detected_sku == q))
  let others := others.filter (fun p => decide (PyNum.le minScore p.score))
  (exact ++ sortByScoreDesc others).take limit

/-- `href_abs`: absolutize a search-result href against the site root. -/
def mcAbsUrl (href : String) : String :=
  if pyStartsWith href "http" then href else "https://www.microcenter.com" ++ href

/-- The candidate-link loop over the search page's anchors: absolutize
against the site root, keep only `/product/` links, drop service-like
URLs, de-duplicate preserving order. -/
def collectLinksGo : List Node → List String → List String
  | [], _ => []
  | a :: rest, seen =>
    let href_abs := mcAbsUrl ((getAttr a "href").getD "")
    if !strContains (pyLower href_abs) "/product/" then collectLinksGo rest seen
    else if _is_service_like_url href_abs then collectLinksGo rest seen
    else if href_abs ∈ seen then collectLinksGo rest seen
    else href_abs :: collectLinksGo rest (href_abs :: seen)

/-- `fetch_microcenter_candidates(q, limit)`.  `searchPage` is the oracle
for the search-results fetch (`none` = exception, absorbed into an empty
list); `parsePage` is the oracle for `_parse_mc_product_page` on each
candidate link (`none` = exception, that link is skipped), with the
`MCURL` field set to the fetched link as the source does.  The returned
Bool records whether the search request was issued at all. -/
def fetch_microcenter_candidates (searchPage : Option Node)
    (parsePage : String → Option MCPage) (q : String) (limit : Nat) :
    List MCCand × Bool :=
  let q := pystrip q
  if q = "" then ([], false)
  else
    match searchPage with
    | none => ([], true)
    | some soup =>
      let cand_links := collectLinksGo (findAllWithAttr soup "a" "href") []
      let parsed := cand_links.filterMap (fun link =>
        match parsePage link with
        | none => none
        | some pg =>
          if pg.detected_sku = "" ∧ pg.MCTitle = "" then none
          else some ⟨pg, link, _score_candidate q pg⟩)
      (rank_results q parsed limit, true)

/-! ### The spec's primary listing strategy, for comparison

Modelled from the spec: §4.1 describes a primary "structured block scan"
for the Listing Extractor — container elements that are self-identified
per-product blocks, carrying the product identifier as a block attribute
(`data-asin` on this marketplace) — with the link scan only as a fallback
when that primary strategy yields zero candidates.  `src/app.py`'s
`parse_top20_from_category_page` contains no such scan, so the block
scan's identifier collection is modelled here from the spec's words. -/
def specBlockScanIdentifiers (page : Node) : List String :=
  (nodeDescend page).filterMap (fun n => getAttr n "data-asin")

/-! ### Concrete fixtures used by counterexamples and witnesses -/

/-- A detail page whose price markup resolves but whose image markup is
entirely absent. -/
def priceOnlyPage : Node :=
  Node.elem "html" [] [
    Node.elem "div" [("id", "priceblock_ourprice")] [
      Node.elem "span" [("class", "a-offscreen")] [Node.text "$9.99"]]]

/-- A detail page with a valid open-graph image and no price markup at all
(E2E scenario C of the spec). -/
def imageOnlyPage : Node :=
  Node.elem "html" [] [
    Node.elem "meta" [("property", "og:image"), ("content", "https://img.example/x.jpg")] []]

def mkDpAnchor (asin : String) : Node :=
  Node.elem "a" [("href", "/dp/" ++ asin)] []

/-- Twenty-one anchors with distinct valid ASINs. -/
def anchors21 : List Node :=
  "ABCDEFGHIJKLMNOPQRSTU".toList.map (fun c => mkDpAnchor ("B00000000" ++ String.mk [c]))

/-- A listing page that carries a self-identified product block (with a
`data-asin` attribute, a price fragment, and no product link) next to an
ordinary product anchor. -/
def blockScanPage : Node :=
  Node.elem "html" [] [
    Node.elem "div" [("data-asin", "B00000000A")] [
      Node.elem "span" [] [Node.text "$9.99"],
      Node.elem "a" [("href", "/x")] [Node.text "T"]],
    Node.elem "a" [("href", "/dp/B00000000B")] [Node.text "Widget"]]

/-- The same anchors as `blockScanPage`, with no product block around them. -/
def flatAnchorsPage : Node :=
  Node.elem "html" [] [
    Node.elem "a" [("href", "/x")] [Node.text "T"],
    Node.elem "a" [("href", "/dp/B00000000B")] [Node.text "Widget"]]

/-- A catalog search-results page listing a service link and a product link. -/
def mcSearchFixture : Node :=
  Node.elem "html" [] [
    Node.elem "a" [("href", "/product/battery-replacement-9000")] [Node.text "Battery Replacement"],
    Node.elem "a" [("href", "/product/foo-123")] [Node.text "Foo"]]

def mcFooPage : MCPage :=
  ⟨"123456", "foo", "", "", ""⟩

def mcParseFixture (link : String) : Option MCPage :=
  if link == "https://www.microcenter.com/product/foo-123" then some mcFooPage else none

/-- The candidate the fixture search produces. -/
def mcFooCand : MCCand :=
  ⟨mcFooPage, "https://www.microcenter.com/product/foo-123", ⟨1, 1, Nat.one_pos⟩⟩

/-- A candidate with a high score and a non-matching SKU. -/
def candHigh : MCCand :=
  ⟨⟨"999999", "t1", "", "", ""⟩, "u1", ⟨9, 10, by omega⟩⟩

/-- A candidate with a low score whose SKU matches the query exactly. -/
def candExact : MCCand :=
  ⟨⟨"123456", "t2", "", "", ""⟩, "u2", ⟨2, 10, by omega⟩⟩

/-! ### Lemmas about the listing extraction loop -/

theorem PyNum.le_total (a b : PyNum) : PyNum.le a b ∨ PyNum.le b a := by
  unfold PyNum.le; omega

theorem PyNum.le_of_not_lt {a b : PyNum} (h : ¬ PyNum.lt a b) : PyNum.le b a := by
  unfold PyNum.lt at h; unfold PyNum.le; omega

theorem PyNum.le_trans {a b c : PyNum} (h₁ : PyNum.le a b) (h₂ : PyNum.le b c) :
    PyNum.le a c := by
  unfold PyNum.le at h₁ h₂ ⊢
  have hb : (0 : Int) < (b.den : Int) := by exact_mod_cast b.den_pos
  have ha : (0 : Int) ≤ (a.den : Int) := by positivity
  have hc : (0 : Int) ≤ (c.den : Int) := by positivity
  nlinarith

theorem PyNum.lt_of_lt_of_le {a b c : PyNum} (h₁ : PyNum.lt a b) (h₂ : PyNum.le b c) :
    PyNum.lt a c := by
  unfold PyNum.lt at h₁ ⊢; unfold PyNum.le at h₂
  have hb : (0 : Int) < (b.den : Int) := by exact_mod_cast b.den_pos
  have ha : (0 : Int) < (a.den : Int) := by exact_mod_cast a.den_pos
  have hc : (0 : Int) < (c.den : Int) := by exact_mod_cast c.den_pos
  nlinarith


theorem firstDedup_not_mem_seen :
    ∀ (l seen : List String) (x : String), x ∈ firstDedup l seen → x ∉ seen := by
  intro l
  induction l with
  | nil => intro seen x hx; simp [firstDedup] at hx
  | cons y ys ih =>
    intro seen x hx
    by_cases hy : y ∈ seen
    · simp [firstDedup, hy] at hx
      exact ih seen x hx
    · simp [firstDedup, hy] at hx
      rcases hx with rfl | hx
      · exact hy
      · have := ih (y :: seen) x hx
        intro hmem
        exact this (List.mem_cons_of_mem _ hmem)

theorem firstDedup_nodup : ∀ (l seen : List String), (firstDedup l seen).Nodup := by
  intro l
  induction l with
  | nil => intro seen; simp [firstDedup]
  | cons y ys ih =>
    intro seen
    by_cases hy : y ∈ seen
    · simp [firstDedup, hy]; exact ih seen
    · simp [firstDedup, hy]
      exact ⟨fun hmem => firstDedup_not_mem_seen ys (y :: seen) y hmem (List.mem_cons_self y seen),
        ih (y :: seen)⟩

theorem top20Go_length_le (R : String → Option String) (U : String) :
    ∀ (anchors : List Node) (seen : List String) (count : Nat), count < 20 →
      (top20Go R U anchors seen count).length ≤ 20 - count := by
  intro anchors
  induction anchors with
  | nil => intro seen count _; simp [top20Go]
  | cons a rest ih =>
    intro seen count h
    simp only [top20Go]
    cases hx : extract_asin_from_url ((getAttr a "href").getD "") with
    | none => exact ih seen count h
    | some asin =>
      by_cases hmem : asin ∈ seen
      · simp only [if_pos hmem]
        exact ih seen count h
      · simp only [if_neg hmem]
        by_cases hc : 20 ≤ count + 1
        · simp only [if_pos hc, List.length_singleton]; omega
        · simp only [if_neg hc, List.length_cons]
          have := ih (asin :: seen) (count + 1) (by omega)
          omega

theorem top20Go_stop (R : String → Option String) (U : String) :
    ∀ (anchors extra : List Node) (seen : List String) (count : Nat), count < 20 →
      (top20Go R U anchors seen count).length = 20 - count →
      top20Go R U (anchors ++ extra) seen count = top20Go R U anchors seen count := by
  intro anchors
  induction anchors with
  | nil =>
    intro extra seen count hc hl
    simp [top20Go] at hl
    omega
  | cons a rest ih =>
    intro extra seen count hc hl
    simp only [List.cons_append, top20Go] at hl ⊢
    cases hx : extract_asin_from_url ((getAttr a "href").getD "") with
    | none =>
      rw [hx] at hl
      exact ih extra seen count hc hl
    | some asin =>
      rw [hx] at hl
      by_cases hmem : asin ∈ seen
      · simp only [if_pos hmem] at hl ⊢
        exact ih extra seen count hc hl
      · simp only [if_neg hmem] at hl ⊢
        by_cases hcnt : 20 ≤ count + 1
        · simp only [if_pos hcnt] at hl ⊢
        · simp only [if_neg hcnt, List.length_cons] at hl ⊢
          rw [List.append_eq, ih extra (asin :: seen) (count + 1) (by omega) (by omega)]

theorem top20Go_map_asin (R : String → Option String) (U : String) :
    ∀ (anchors : List Node) (seen : List String) (count : Nat), count < 20 →
      (top20Go R U anchors seen count).map AmznItem.ASIN
        = (firstDedup (anchorAsins anchors) seen).take (20 - count) := by
  intro anchors
  induction anchors with
  | nil => intro seen count _; simp [top20Go, anchorAsins, firstDedup]
  | cons a rest ih =>
    intro seen count h
    simp only [top20Go, anchorAsins, List.filterMap_cons]
    cases hx : extract_asin_from_url ((getAttr a "href").getD "") with
    | none => exact ih seen count h
    | some asin =>
      by_cases hmem : asin ∈ seen
      · simp only [if_pos hmem, firstDedup]
        exact ih seen count h
      · simp only [if_neg hmem, firstDedup]
        by_cases hc : 20 ≤ count + 1
        · have hcount : count = 19 := by omega
          subst hcount
          simp only [if_pos hc, List.map_cons, List.map_nil]
          simp [List.take_succ_cons]
        · simp only [if_neg hc, List.map_cons]
          rw [ih (asin :: seen) (count + 1) (by omega)]
          have : 20 - count = (20 - (count + 1)) + 1 := by omega
          rw [this, List.take_succ_cons]
          simp [anchorAsins]

/-! ### Lemmas about the detail-fetch retry loop -/

theorem PyNum.le_of_lt {a b : PyNum} (h : PyNum.lt a b) : PyNum.le a b := by
  unfold PyNum.lt at h; unfold PyNum.le; omega

theorem detailLoop_price_imp_image (fetch : Nat → Option Node) (retries : Nat) :
    ∀ (remaining attempt : Nat),
      (detailLoop fetch retries attempt remaining).1.1 ≠ "" →
      (detailLoop fetch retries attempt remaining).1.2 ≠ "" := by
  intro remaining
  induction remaining with
  | zero => intro attempt h; simp [detailLoop] at h
  | succ rem ih =>
    intro attempt
    simp only [detailLoop]
    cases hf : fetch attempt with
    | some soup =>
      by_cases hemp : extract_image_from_soup_amzn soup = ""
      · simp only [hemp, ne_eq, not_true_eq_false, if_false]
        exact ih (attempt + 1)
      · simp [hemp]
    | none =>
      by_cases hra : retries ≤ attempt
      · simp [hra]
      · simp only [if_neg hra]
        exact ih (attempt + 1)

theorem detailLoop_all_image_empty (fetch : Nat → Option Node) (retries : Nat)
    (h : ∀ n soup, fetch n = some soup → extract_image_from_soup_amzn soup = "") :
    ∀ (remaining attempt : Nat), (detailLoop fetch retries attempt remaining).1 = ("", "") := by
  intro remaining
  induction remaining with
  | zero => intro attempt; simp [detailLoop]
  | succ rem ih =>
    intro attempt
    simp only [detailLoop]
    cases hf : fetch attempt with
    | some soup =>
      have himg := h attempt soup hf
      simp only [himg, ne_eq, not_true_eq_false, if_false]
      exact ih (attempt + 1)
    | none =>
      by_cases hra : retries ≤ attempt
      · simp [hra]
      · simp only [if_neg hra]
        exact ih (attempt + 1)

theorem detailLoop_congr (f g : Nat → Option Node) (retries : Nat) :
    ∀ (remaining attempt : Nat), (∀ n, n < attempt + remaining → f n = g n) →
      detailLoop f retries attempt remaining = detailLoop g retries attempt remaining := by
  intro remaining
  induction remaining with
  | zero => intro attempt _; simp [detailLoop]
  | succ rem ih =>
    intro attempt h
    have hat : f attempt = g attempt := h attempt (by omega)
    simp only [detailLoop, ← hat]
    cases hf : f attempt with
    | some soup =>
      by_cases himg : extract_image_from_soup_amzn soup ≠ ""
      · simp [himg]
      · simp only [if_neg himg]
        rw [ih (attempt + 1) (fun n hn => h n (by omega))]
    | none =>
      by_cases hra : retries ≤ attempt
      · simp [hra]
      · simp only [if_neg hra]
        rw [ih (attempt + 1) (fun n hn => h n (by omega))]

/-! ### Lemmas about the Micro Center candidate ranking -/

theorem mem_insertScoreDesc (x : MCCand) :
    ∀ (l : List MCCand) (z : MCCand), z ∈ insertScoreDesc x l ↔ z = x ∨ z ∈ l := by
  intro l
  induction l with
  | nil => intro z; simp [insertScoreDesc]
  | cons y ys ih =>
    intro z
    by_cases hlt : PyNum.lt x.score y.score
    · simp only [insertScoreDesc, if_pos hlt, List.mem_cons, ih]
      tauto
    · simp only [insertScoreDesc, if_neg hlt, List.mem_cons]

theorem mem_sortByScoreDesc :
    ∀ (l : List MCCand) (z : MCCand), z ∈ sortByScoreDesc l ↔ z ∈ l := by
  intro l
  induction l with
  | nil => intro z; simp [sortByScoreDesc]
  | cons y ys ih =>
    intro z
    simp only [sortByScoreDesc, mem_insertScoreDesc, ih, List.mem_cons]

theorem pairwise_insertScoreDesc (x : MCCand) :
    ∀ (l : List MCCand), l.Pairwise (fun a b => PyNum.le b.score a.score) →
      (insertScoreDesc x l).Pairwise (fun a b => PyNum.le b.score a.score) := by
  intro l
  induction l with
  | nil => intro _; simp [insertScoreDesc]
  | cons y ys ih =>
    intro h
    rw [List.pairwise_cons] at h
    by_cases hlt : PyNum.lt x.score y.score
    · simp only [insertScoreDesc, if_pos hlt]
      rw [List.pairwise_cons]
      constructor
      · intro z hz
        rcases (mem_insertScoreDesc x ys z).1 hz with rfl | hz2
        · exact PyNum.le_of_lt hlt
        · exact h.1 z hz2
      · exact ih h.2
    · simp only [insertScoreDesc, if_neg hlt]
      rw [List.pairwise_cons]
      constructor
      · intro z hz
        rcases List.mem_cons.1 hz with rfl | hz2
        · exact PyNum.le_of_not_lt hlt
        · exact PyNum.le_trans (h.1 z hz2) (PyNum.le_of_not_lt hlt)
      · rw [List.pairwise_cons]
        exact h

theorem pairwise_sortByScoreDesc :
    ∀ (l : List MCCand), (sortByScoreDesc l).Pairwise (fun a b => PyNum.le b.score a.score) := by
  intro l
  induction l with
  | nil => simp [sortByScoreDesc]
  | cons y ys ih => exact pairwise_insertScoreDesc y (sortByScoreDesc ys) ih

theorem rank_results_mem {q : String} {parsed : List MCCand} {limit : Nat} {p : MCCand}
    (h : p ∈ rank_results q parsed limit) : p ∈ parsed := by
  simp only [rank_results] at h
  have h2 := List.mem_of_mem_take h
  rcases List.mem_append.1 h2 with h3 | h3
  · exact (List.mem_filter.1 h3).1
  · have h4 := (mem_sortByScoreDesc _ _).1 h3
    exact (List.mem_filter.1 (List.mem_filter.1 h4).1).1

theorem collectLinksGo_no_service :
    ∀ (anchors : List Node) (seen : List String) (link : String),
      link ∈ collectLinksGo anchors seen → _is_service_like_url link = false := by
  intro anchors
  induction anchors with
  | nil => intro seen link h; simp [collectLinksGo] at h
  | cons a rest ih =>
    intro seen link h
    simp only [collectLinksGo] at h
    split at h
    · exact ih seen link h
    · split at h
      · exact ih seen link h
      · split at h
        · exact ih _ link h
        · rcases List.mem_cons.1 h with rfl | h4
          · next h2 _ => simpa using h2
          · exact ih _ link h4

theorem detailLoop_all_none (fetch : Nat → Option Node) (retries : Nat) :
    ∀ (remaining attempt : Nat), (∀ n, n < attempt + remaining → fetch n = none) →
      attempt + remaining = retries + 1 →
      detailLoop fetch retries attempt remaining = (("", ""), remaining - 1) := by
  intro remaining
  induction remaining with
  | zero => intro attempt _ _; simp [detailLoop]
  | succ rem ih =>
    intro attempt h hsum
    have hat : fetch attempt = none := h attempt (by omega)
    simp only [detailLoop, hat]
    by_cases hra : retries ≤ attempt
    · have hrem : rem = 0 := by omega
      subst hrem
      simp [hra]
    · simp only [if_neg hra]
      rw [ih (attempt + 1) (fun n hn => h n (by omega)) (by omega)]
      have hrem : 1 ≤ rem := by omega
      simp
      omega

theorem swapIfInconsistent_le (cur ret : String) {x y : PyNum}
    (hx : to_num ((swapIfInconsistent cur ret).1) = some x)
    (hy : to_num ((swapIfInconsistent cur ret).2) = some y) : PyNum.le x y := by
  unfold swapIfInconsistent at hx hy
  cases hc : to_num cur with
  | none =>
    rw [hc] at hx hy
    simp only at hx hy
    rw [hc] at hx
    exact absurd hx (by simp)
  | some a =>
    rw [hc] at hx hy
    cases hr : to_num ret with
    | none =>
      rw [hr] at hx hy
      simp only at hx hy
      rw [hr] at hy
      exact absurd hy (by simp)
    | some b =>
      rw [hr] at hx hy
      by_cases hlt : PyNum.lt b a
      · simp only [if_pos hlt] at hx hy
        rw [hr] at hx
        rw [hc] at hy
        obtain rfl : b = x := by injection hx
        obtain rfl : a = y := by injection hy
        exact PyNum.le_of_lt hlt
      · simp only [if_neg hlt] at hx hy
        rw [hc] at hx
        rw [hr] at hy
        obtain rfl : a = x := by injection hx
        obtain rfl : b = y := by injection hy
        exact PyNum.le_of_not_lt hlt

/-! ### Claim theorems -/

/-- C2: for every listing page, `parse_top20_from_category_page` returns at
most 20 candidates no matter how many product links the markup contains,
and the anchor scan stops as soon as the 20th unique candidate has been
collected: once a scan of some anchors has produced 20 items, appending
any further anchors leaves the result unchanged. -/
theorem extractListing_cap20_and_stops (redirect : String → Option String) (soup : Node)
    (finalUrl : String) (anchors extra : List Node) :
    (parse_top20_from_category_page redirect soup finalUrl).length ≤ 20 ∧
    ((parse_top20_from_anchors redirect finalUrl anchors).length = 20 →
      parse_top20_from_anchors redirect finalUrl (anchors ++ extra)
        = parse_top20_from_anchors redirect finalUrl anchors) := by
  constructor
  · have h := top20Go_length_le redirect finalUrl (findAllWithAttr soup "a" "href") [] 0
      (by omega)
    simpa [parse_top20_from_category_page, parse_top20_from_anchors] using h
  · intro h
    exact top20Go_stop redirect finalUrl anchors extra [] 0 (by omega) (by simpa using h)

/-- Witness for C2: twenty-one distinct product anchors produce exactly 20
items, and a 22nd anchor appended after them changes nothing. -/
theorem extractListing_cap20_and_stops_witness :
    (parse_top20_from_anchors (fun _ => none) "https://www.amazon.com/best" anchors21).length
        = 20 ∧
    parse_top20_from_anchors (fun _ => none) "https://www.amazon.com/best"
        (anchors21 ++ [mkDpAnchor "B00000000V"])
      = parse_top20_from_anchors (fun _ => none) "https://www.amazon.com/best" anchors21 :=
  ⟨by decide,
   (extractListing_cap20_and_stops (fun _ => none) (Node.text "") "https://www.amazon.com/best"
      anchors21 [mkDpAnchor "B00000000V"]).2 (by decide)⟩

/-- C3: for every listing page, the returned candidates carry pairwise
distinct ASINs, and their order is exactly the first-occurrence order of
the ASINs extracted from the page's anchors (duplicates skipped, first
occurrence wins), truncated to 20. -/
theorem extractListing_unique_first_occurrence_order (redirect : String → Option String)
    (soup : Node) (finalUrl : String) :
    ((parse_top20_from_category_page redirect soup finalUrl).map AmznItem.ASIN).Nodup ∧
    (parse_top20_from_category_page redirect soup finalUrl).map AmznItem.ASIN
      = (firstDedup (anchorAsins (findAllWithAttr soup "a" "href")) []).take 20 := by
  have hmap := top20Go_map_asin redirect finalUrl (findAllWithAttr soup "a" "href") [] 0
    (by omega)
  constructor
  · rw [parse_top20_from_category_page, parse_top20_from_anchors, hmap]
    exact List.Nodup.sublist (List.take_sublist _ _) (firstDedup_nodup _ _)
  · simpa [parse_top20_from_category_page, parse_top20_from_anchors] using hmap

/-- C8 counterexample: on a page carrying a self-identified product block,
the spec's primary structured block scan yields a candidate
(`B00000000A`), yet the code's extraction ignores it entirely and returns
only the plain anchor-scan result (`B00000000B`) — there is no primary
block-scan strategy in `parse_top20_from_category_page`. -/
theorem extractListing_no_block_scan_cex :
    specBlockScanIdentifiers blockScanPage = ["B00000000A"] ∧
    (parse_top20_from_category_page (fun _ => none) blockScanPage
        "https://www.amazon.com/best").map AmznItem.ASIN = ["B00000000B"] ∧
    "B00000000A" ∉ (parse_top20_from_category_page (fun _ => none) blockScanPage
        "https://www.amazon.com/best").map AmznItem.ASIN :=
  ⟨by decide, by decide, by decide⟩

/-- C8 as amended: `parse_top20_from_category_page` always scans the page's
hyperlink elements and nothing else — two pages with the same `a[href]`
anchors produce the same result no matter what block structure or price
fragments surround them. -/
theorem extractListing_anchor_determined (redirect : String → Option String)
    (p1 p2 : Node) (finalUrl : String)
    (h : findAllWithAttr p1 "a" "href" = findAllWithAttr p2 "a" "href") :
    parse_top20_from_category_page redirect p1 finalUrl
      = parse_top20_from_category_page redirect p2 finalUrl := by
  simp [parse_top20_from_category_page, h]

/-- Witness for the amended C8: the block-carrying page and the flat page
have the same anchors and hence the same extraction result. -/
theorem extractListing_anchor_determined_witness :
    findAllWithAttr blockScanPage "a" "href" = findAllWithAttr flatAnchorsPage "a" "href" ∧
    parse_top20_from_category_page (fun _ => none) blockScanPage "https://www.amazon.com/best"
      = parse_top20_from_category_page (fun _ => none) flatAnchorsPage
          "https://www.amazon.com/best" :=
  ⟨rfl,
   extractListing_anchor_determined (fun _ => none) blockScanPage flatAnchorsPage
     "https://www.amazon.com/best" rfl⟩

/-- C1 counterexample: the claim's field independence fails on the code.
On a page whose price markup resolves to `$9.99` but whose image markup
is missing, `fetch_item_details_amzn` discards the successfully resolved
price and returns both fields empty — so price resolution does depend on
image resolution succeeding (and no popularity text is resolved at all:
the function returns only a pair). -/
theorem fetch_details_not_field_independent :
    extract_price_from_soup_amzn priceOnlyPage = "$9.99" ∧
    extract_image_from_soup_amzn priceOnlyPage = "" ∧
    (fetch_item_details_amzn (fun _ => some priceOnlyPage) 2).1 = ("", "") :=
  ⟨by decide, by decide, by decide⟩

/-- C1 as amended: `fetch_item_details_amzn` resolves a `(price, imageUrl)`
pair (no popularity text).  Whenever the first attempt's page has a
resolvable image, the two fields are resolved independently from that
page; in particular a missing price with a resolving image yields a
populated `imageUrl` and an empty price.  The converse does not hold: a
non-empty price can only be returned together with a non-empty image. -/
theorem fetch_details_pair_resolution (fetch : Nat → Option Node) (page : Node) (retries : Nat)
    (h0 : fetch 0 = some page) (himg : extract_image_from_soup_amzn page ≠ "") :
    (fetch_item_details_amzn fetch retries).1
      = (extract_price_from_soup_amzn page, extract_image_from_soup_amzn page) := by
  simp [fetch_item_details_amzn, detailLoop, h0, himg]

/-- Witness for the amended C1: the image-only page yields an empty price
together with its open-graph image URL (the spec's P5 / scenario C). -/
theorem fetch_details_pair_resolution_witness :
    extract_image_from_soup_amzn imageOnlyPage ≠ "" ∧
    (fetch_item_details_amzn (fun _ => some imageOnlyPage) 2).1
      = ("", "https://img.example/x.jpg") := by
  refine ⟨by decide, ?_⟩
  rw [fetch_details_pair_resolution (fun _ => some imageOnlyPage) imageOnlyPage 2 rfl
    (by decide)]
  decide

/-- C9: `fetch_item_details_amzn` returns a non-empty price only together
with a non-empty image, and when every fetched page resolves an empty
image, both returned fields are empty — any price resolved on those
attempts is discarded. -/
theorem fetch_details_price_only_with_image (fetch : Nat → Option Node) (retries : Nat) :
    ((fetch_item_details_amzn fetch retries).1.1 ≠ "" →
      (fetch_item_details_amzn fetch retries).1.2 ≠ "") ∧
    ((∀ n soup, fetch n = some soup → extract_image_from_soup_amzn soup = "") →
      (fetch_item_details_amzn fetch retries).1 = ("", "")) :=
  ⟨detailLoop_price_imp_image fetch retries (retries + 1) 0,
   fun h => detailLoop_all_image_empty fetch retries h (retries + 1) 0⟩

/-- Witness for C9: on the price-only page the price resolves to `$9.99`,
yet the returned pair is entirely empty. -/
theorem fetch_details_price_only_with_image_witness :
    extract_price_from_soup_amzn priceOnlyPage = "$9.99" ∧
    (fetch_item_details_amzn (fun _ => some priceOnlyPage) 2).1 = ("", "") := by
  refine ⟨by decide, ?_⟩
  refine (fetch_details_price_only_with_image (fun _ => some priceOnlyPage) 2).2 ?_
  intro n soup hs
  have h2 : priceOnlyPage = soup := by injection hs
  rw [← h2]
  decide

/-- C6: the whole detail fetch is attempted at most 3 times (`retries = 2`
plus the initial attempt): the result depends only on the first three
fetch outcomes; and when every attempt raises, the function absorbs the
failures — it performs 2 backoff sleeps between the 3 attempts and
returns both fields empty instead of raising. -/
theorem fetch_details_retry_policy (f g : Nat → Option Node) :
    ((∀ n, n < 3 → f n = none) → fetch_item_details_amzn f 2 = (("", ""), 2)) ∧
    ((∀ n, n < 3 → f n = g n) → fetch_item_details_amzn f 2 = fetch_item_details_amzn g 2) := by
  constructor
  · intro h
    have h2 := detailLoop_all_none f 2 3 0 (fun n hn => h n (by omega)) (by omega)
    simpa [fetch_item_details_amzn] using h2
  · intro h
    exact detailLoop_congr f g 2 3 0 (fun n hn => h n (by omega))

/-- Witness for C6: an always-failing fetch gives empty fields after 2
backoff sleeps, and outcomes past the third attempt are never consulted. -/
theorem fetch_details_retry_policy_witness :
    fetch_item_details_amzn (fun _ => none) 2 = (("", ""), 2) ∧
    fetch_item_details_amzn (fun _ => none) 2
      = fetch_item_details_amzn (fun n => if n < 3 then none else some priceOnlyPage) 2 := by
  constructor
  · exact (fetch_details_retry_policy (fun _ => none) (fun _ => none)).1 (fun n _ => rfl)
  · exact (fetch_details_retry_policy (fun _ => none)
      (fun n => if n < 3 then none else some priceOnlyPage)).2 (fun n hn => by simp [hn])

/-- C4: for a numeric (plausible-SKU) query, any candidate whose resolved
SKU equals the query exactly is forced to the front of the ranking block
of `fetch_microcenter_candidates`, ahead of all score-based ordering;
every other returned candidate passed the `minScore` (0.12) threshold;
and the non-exact part of the result is sorted descending by score. -/
theorem matchCatalog_exact_id_override (q : String) (parsed : List MCCand) (limit : Nat)
    (c : MCCand) (hq : isNumericId q = true) (hc : c ∈ parsed) (hsku : c.detected_sku = q)
    (hlim : 1 ≤ limit) :
    (∃ e, (rank_results q parsed limit).head? = some e ∧ e.detected_sku = q) ∧
    (∀ p ∈ rank_results q parsed limit, p.detected_sku = q ∨ PyNum.le minScore p.score) ∧
    ((rank_results q parsed limit).filter (fun p => !(p.detected_sku == q))).Pairwise
      (fun a b => PyNum.le b.score a.score) := by
  simp only [rank_results, hq, Bool.true_and]
  set ex := parsed.filter (fun p => p.detected_sku == q) with hex
  set srt := sortByScoreDesc ((parsed.filter (fun p => !(p.detected_sku == q))).filter
      (fun p => decide (PyNum.le minScore p.score))) with hsrt
  have hcex : c ∈ ex := by
    rw [hex]
    exact List.mem_filter.2 ⟨hc, by simp [hsku]⟩
  obtain ⟨e, t, het⟩ := List.exists_cons_of_ne_nil (List.ne_nil_of_mem hcex)
  obtain ⟨k, rfl⟩ : ∃ k, limit = k + 1 := ⟨limit - 1, by omega⟩
  refine ⟨⟨e, ?_, ?_⟩, ?_, ?_⟩
  · rw [het]
    simp [List.take_succ_cons]
  · have he : e ∈ ex := by rw [het]; exact List.mem_cons_self e t
    rw [hex] at he
    simpa using (List.mem_filter.1 he).2
  · intro p hp
    have hp2 := List.mem_of_mem_take hp
    rcases List.mem_append.1 hp2 with h3 | h3
    · rw [hex] at h3
      left
      simpa using (List.mem_filter.1 h3).2
    · rw [hsrt] at h3
      have h4 := (mem_sortByScoreDesc _ _).1 h3
      right
      exact of_decide_eq_true (List.mem_filter.1 h4).2
  · have hsub : List.Sublist
        (((ex ++ srt).take (k + 1)).filter (fun p => !(p.detected_sku == q)))
        ((ex ++ srt).filter (fun p => !(p.detected_sku == q))) :=
      List.Sublist.filter _ (List.take_sublist _ _)
    rw [List.filter_append] at hsub
    have hexf : ex.filter (fun p => !(p.detected_sku == q)) = [] := by
      rw [hex]
      refine List.filter_eq_nil_iff.2 ?_
      intro a ha
      have h5 := (List.mem_filter.1 ha).2
      simp only [Bool.not_eq_true']
      simpa using h5
    have hsrtf : srt.filter (fun p => !(p.detected_sku == q)) = srt := by
      rw [hsrt]
      refine List.filter_eq_self.2 ?_
      intro a ha
      have h4 := (mem_sortByScoreDesc _ _).1 ha
      exact (List.mem_filter.1 (List.mem_filter.1 h4).1).2
    rw [hexf, hsrtf, List.nil_append] at hsub
    refine List.Pairwise.sublist hsub ?_
    rw [hsrt]
    exact pairwise_sortByScoreDesc _

/-- Witness for C4: the spec's P7 instance — a 0.2-scored exact SKU match
outranks a 0.9-scored non-match for the query `"123456"`. -/
theorem matchCatalog_exact_id_override_witness :
    (rank_results "123456" [candHigh, candExact] 8).head? = some candExact ∧
    ((∃ e, (rank_results "123456" [candHigh, candExact] 8).head? = some e ∧
        e.detected_sku = "123456") ∧
      (∀ p ∈ rank_results "123456" [candHigh, candExact] 8,
        p.detected_sku = "123456" ∨ PyNum.le minScore p.score) ∧
      ((rank_results "123456" [candHigh, candExact] 8).filter
          (fun p => !(p.detected_sku == "123456"))).Pairwise
        (fun a b => PyNum.le b.score a.score)) :=
  ⟨by decide,
   matchCatalog_exact_id_override "123456" [candHigh, candExact] 8 candExact (by decide)
     (by decide) rfl (by omega)⟩

theorem to_num_empty : to_num "" = none := rfl

theorem swapIfInconsistent_ret_empty (cur : String) :
    swapIfInconsistent cur "" = (cur, "") := by
  unfold swapIfInconsistent
  cases h : to_num cur <;> simp [h, to_num_empty]

theorem swapIfInconsistent_cur_empty (ret : String) :
    swapIfInconsistent "" ret = ("", ret) := by
  unfold swapIfInconsistent
  cases h : to_num ret <;> simp [h, to_num_empty]

/-- C5: catalog price disambiguation.  The concrete "was $40" / "now $25"
pair resolves to current `$25` and retail (list) `$40` in either order of
appearance; a lone match whose context cues only "current" (or carries no
cue at all) fills the current slot, one cueing only "retail" fills the
retail slot; and whenever both returned prices parse, current ≤ retail —
the final swap repairs any inconsistency. -/
theorem pick_prices_disambiguation :
    (_pick_prices [("$40", "was $40", "x"), ("$25", "now $25", "x")] = ("$25", "$40") ∧
      _pick_prices [("$25", "now $25", "x"), ("$40", "was $40", "x")] = ("$25", "$40")) ∧
    (∀ v ctx s, PRICE_CTX_CURRENT ctx = true → PRICE_CTX_RETAIL ctx = false →
      _pick_prices [(v, ctx, s)] = (v, "")) ∧
    (∀ v ctx s, PRICE_CTX_RETAIL ctx = true → PRICE_CTX_CURRENT ctx = false →
      _pick_prices [(v, ctx, s)] = ("", v)) ∧
    (∀ v ctx s, PRICE_CTX_CURRENT ctx = false → PRICE_CTX_RETAIL ctx = false →
      _pick_prices [(v, ctx, s)] = (v, "")) ∧
    (∀ cands x y, to_num ((_pick_prices cands).1) = some x →
      to_num ((_pick_prices cands).2) = some y → PyNum.le x y) := by
  refine ⟨⟨by decide, by decide⟩, ?_, ?_, ?_, ?_⟩
  · intro v ctx s hc hr
    simp [_pick_prices, partition3, score_current, score_retail, hc, hr, sortEntriesDesc,
      insertEntryDesc, swapIfInconsistent_ret_empty]
  · intro v ctx s hr hc
    simp [_pick_prices, partition3, score_current, score_retail, hc, hr, sortEntriesDesc,
      insertEntryDesc, swapIfInconsistent_cur_empty]
  · intro v ctx s hc hr
    simp [_pick_prices, partition3, score_current, score_retail, hc, hr, sortEntriesDesc,
      insertEntryDesc, swapIfInconsistent_ret_empty]
  · intro cands x y hx hy
    by_cases hnil : cands.isEmpty
    · simp only [_pick_prices, if_pos hnil] at hx
      rw [to_num_empty] at hx
      exact absurd hx (by simp)
    · simp only [_pick_prices, if_neg hnil] at hx hy
      exact swapIfInconsistent_le _ _ hx hy

/-- Witness for C5: a lone "now"-cued match fills only the current slot,
and the parsed current/retail pair of the "was $40" / "now $25" fixture
satisfies current ≤ retail. -/
theorem pick_prices_disambiguation_witness :
    (PRICE_CTX_CURRENT "now only" = true ∧ PRICE_CTX_RETAIL "now only" = false ∧
      _pick_prices [("$5", "now only", "x")] = ("$5", "")) ∧
    (to_num ((_pick_prices [("$40", "was $40", "x"), ("$25", "now $25", "x")]).1)
        = some ⟨25, 1, Nat.one_pos⟩ ∧
      to_num ((_pick_prices [("$40", "was $40", "x"), ("$25", "now $25", "x")]).2)
        = some ⟨40, 1, Nat.one_pos⟩ ∧
      PyNum.le ⟨25, 1, Nat.one_pos⟩ ⟨40, 1, Nat.one_pos⟩) :=
  ⟨⟨by decide, by decide,
    pick_prices_disambiguation.2.1 "$5" "now only" "x" (by decide) (by decide)⟩,
   ⟨by decide, by decide,
    pick_prices_disambiguation.2.2.2.2 [("$40", "was $40", "x"), ("$25", "now $25", "x")]
      ⟨25, 1, Nat.one_pos⟩ ⟨40, 1, Nat.one_pos⟩ (by decide) (by decide)⟩⟩

/-- C7: no candidate returned by `fetch_microcenter_candidates` carries a
URL matching the service/repair/battery/warranty/appointment pattern —
such links are filtered out before any detail page is fetched. -/
theorem matchCatalog_no_service_urls (searchPage : Option Node)
    (parsePage : String → Option MCPage) (q : String) (limit : Nat) (c : MCCand)
    (hc : c ∈ (fetch_microcenter_candidates searchPage parsePage q limit).1) :
    _is_service_like_url c.MCURL = false := by
  simp only [fetch_microcenter_candidates] at hc
  by_cases hq : pystrip q = ""
  · rw [if_pos hq] at hc
    simp at hc
  · rw [if_neg hq] at hc
    cases searchPage with
    | none => simp at hc
    | some soup =>
      simp only at hc
      have hmem := rank_results_mem hc
      obtain ⟨link, hlink, heq⟩ := List.mem_filterMap.1 hmem
      cases hp : parsePage link with
      | none => rw [hp] at heq; simp at heq
      | some pg =>
        rw [hp] at heq
        dsimp only at heq
        by_cases hcond : pg.detected_sku = "" ∧ pg.MCTitle = ""
        · rw [if_pos hcond] at heq
          simp at heq
        · rw [if_neg hcond] at heq
          obtain rfl : (⟨pg, link, _score_candidate (pystrip q) pg⟩ : MCCand) = c := by
            injection heq
          exact collectLinksGo_no_service _ _ _ hlink

/-- Witness for C7: on the fixture search page (one battery-service link,
one product link) the returned candidate's URL is not service-like. -/
theorem matchCatalog_no_service_urls_witness :
    mcFooCand ∈ (fetch_microcenter_candidates (some mcSearchFixture) mcParseFixture "foo" 8).1 ∧
    _is_service_like_url mcFooCand.MCURL = false :=
  ⟨by decide,
   matchCatalog_no_service_urls (some mcSearchFixture) mcParseFixture "foo" 8 mcFooCand
     (by decide)⟩

/-- C10: a query that is empty or whitespace-only makes
`fetch_microcenter_candidates` return the empty list immediately: the
search request is never issued (the returned flag is `false`) and the
result does not depend on either network oracle. -/
theorem matchCatalog_blank_query_no_request (searchPage : Option Node)
    (parsePage : String → Option MCPage) (q : String) (limit : Nat)
    (h : pystrip q = "") :
    fetch_microcenter_candidates searchPage parsePage q limit = ([], false) := by
  simp [fetch_microcenter_candidates, h]

/-- Witness for C10: a whitespace-only query returns no candidates and
issues no search request even though a search page would be available. -/
theorem matchCatalog_blank_query_no_request_witness :
    pystrip "  \t " = "" ∧
    fetch_microcenter_candidates (some mcSearchFixture) mcParseFixture "  \t " 8
      = ([], false) :=
  ⟨by decide,
   matchCatalog_blank_query_no_request (some mcSearchFixture) mcParseFixture "  \t " 8
     (by decide)⟩
